import Mathlib

/-
Verification development for the regulatory-reporting-automation repository.

Shallow embedding of the two core modules the claims are about:
  * 3_deliverables/rule_engine.py (RuleEngine: load_rules / apply_rules and
    the four per-type rule evaluators), and
  * src/agents/regulatory_interpreter_agent.py (RegulatoryInterpreterAgent:
    the five-stage interpret_regulation pipeline and its confidence score).

Modelling conventions:
  * Python numeric values (ints/floats in the financial-data records and in
    the confidence arithmetic) are modelled as rationals (ℚ); IEEE rounding
    is not modelled.
  * Python dicts of data records are association lists with unique-key
    update semantics (assignment overwrites an existing key in place,
    otherwise appends, preserving insertion order), matching CPython dicts.
  * Python object identity / in-place mutation of data dicts is modelled
    explicitly with a small heap: `Heap` is a list of dict values, a dict
    reference is an index, `data.copy()` allocates a fresh reference and
    `d[k] = v` writes through a reference.  This is needed to state the
    frame property of `apply_rules` (the caller's dict is never written).
  * Timestamps (`effective_date`, `datetime.now()`) are integers; the clock
    is an explicit `now` parameter.
  * Python exceptions inside a rule evaluator are modelled with
    `Except String`; the `try/except` of `_apply_single_rule` catches them.
  * The registered calculation functions (`self.rule_functions`) are a
    parameter `Registry`; `standard_registry` is the result of
    `_register_standard_functions`.
-/

namespace RuleEngine

abbrev Val := ℚ

/-- A financial-data record: a Python dict of string keys to numbers,
modelled as an association list with unique keys. -/
abbrev Dict := List (String × Val)

/-- Python `d.get(k)` / `d[k]` lookup: first (unique) matching key. -/
def dictGet : Dict → String → Option Val
  | [], _ => none
  | (k, v) :: rest, key => if k = key then some v else dictGet rest key

/-- Python `d[k] = v`: overwrite the existing key in place (keeping its
position), otherwise append at the end. -/
def dictSet : Dict → String → Val → Dict
  | [], k, v => [(k, v)]
  | (k', v') :: rest, k, v =>
    if k' = k then (k, v) :: rest else (k', v') :: dictSet rest k v

/-- The heap of live dict objects; a dict reference is an index into it. -/
abbrev Heap := List Dict

/-- Dereference a dict reference. -/
def heapRead (h : Heap) (r : Nat) : Dict := h.getD r []

/-- In-place mutation of the dict object behind a reference. -/
def heapWrite (h : Heap) (r : Nat) (d : Dict) : Heap := h.set r d

/-- Allocate a fresh dict object (models `dict.copy()` / a dict literal)
and return its reference. -/
def heapAlloc (h : Heap) (d : Dict) : Heap × Nat := (h ++ [d], h.length)

/-- The RuleType enum of rule_engine.py. -/
inductive RuleType where
  | validation
  | calculation
  | transformation
  | conditional
deriving DecidableEq

/-- Name of a RuleType enum value as it appears in rule definitions. -/
def parseRuleType : String → Option RuleType
  | "validation" => some .validation
  | "calculation" => some .calculation
  | "transformation" => some .transformation
  | "conditional" => some .conditional
  | _ => none

/-- The `parameters` dict of a rule, restricted to the keys the engine
reads: "field" and "condition" (validation), "fields" and "rate"
(transformation).  `none` means the key is absent. -/
structure Params where
  field : Option String := none
  condition : Option String := none
  fields : Option (List String) := none
  rate : Option Val := none
deriving DecidableEq

/-- The Rule dataclass of rule_engine.py. -/
structure Rule where
  rule_id : String
  regulator : String
  rule_type : RuleType
  description : String
  expression : String
  parameters : Params
  version : String
  effective_date : ℤ
deriving DecidableEq

/-- The dict returned by a single rule evaluator: a `status`, the rule id,
and optional `message`, `output` and `transformed_data` keys (the latter is
a reference to the dict the transformation produced). -/
structure RuleOutcome where
  status : String
  rule_id : String
  message : Option String := none
  output : Option Val := none
  transformed_data : Option Nat := none
deriving DecidableEq

/-- One entry of `results["rule_applications"]`. -/
structure RuleApplication where
  rule_id : String
  status : String
  message : Option String
  output : Option Val
deriving DecidableEq

/-- A registered calculation function: `(data, params) -> float`, which may
raise (modelled by `Except String`). -/
abbrev CalcFn := Dict → Params → Except String Val

/-- The `self.rule_functions` registry: name -> registered function. -/
abbrev Registry := String → Option CalcFn

/-- Built-in `debt_to_equity_ratio` of `_register_standard_functions`:
`data.get("total_debt", 0) / data.get("total_equity", 1)`, with zero
equity producing 0. -/
def debt_to_equity_ratio (data : Dict) (_ : Params) : Val :=
  let debt := (dictGet data "total_debt").getD 0
  let equity := (dictGet data "total_equity").getD 1
  if equity ≠ 0 then debt / equity else 0

/-- Built-in `working_capital` of `_register_standard_functions`:
`current_assets - current_liabilities` (both defaulting to 0). -/
def working_capital (data : Dict) (_ : Params) : Val :=
  (dictGet data "current_assets").getD 0 - (dictGet data "current_liabilities").getD 0

/-- The registry produced by `_register_standard_functions`: exactly the
two built-ins, neither of which raises. -/
def standard_registry : Registry := fun name =>
  if name = "debt_to_equity_ratio" then some (fun d p => .ok (debt_to_equity_ratio d p))
  else if name = "working_capital" then some (fun d p => .ok (working_capital d p))
  else none

/-- `_apply_validation_rule`: only the "required" and "positive" conditions
fail; everything else passes. -/
def apply_validation_rule (rule : Rule) (data : Dict) : RuleOutcome :=
  match rule.parameters.field, rule.parameters.condition with
  | some f, some c =>
    let fv := dictGet data f
    let isNeg : Bool := match fv with | some v => decide (v < 0) | none => false
    if c = "required" ∧ fv = none then
      { status := "failed", message := some (f ++ " is required"), rule_id := rule.rule_id }
    else if c = "positive" ∧ isNeg = true then
      { status := "failed", message := some (f ++ " must be positive"), rule_id := rule.rule_id }
    else
      { status := "passed", rule_id := rule.rule_id }
  | _, _ => { status := "passed", rule_id := rule.rule_id }

/-- `_apply_calculation_rule`: look the `expression` up in the registry;
an unregistered name yields a status="error" outcome (returned, not
raised); a registered function may itself raise. -/
def apply_calculation_rule (reg : Registry) (rule : Rule) (data : Dict) :
    Except String RuleOutcome :=
  match reg rule.expression with
  | some f =>
    (f data rule.parameters).map fun out =>
      { status := "success", output := some out, rule_id := rule.rule_id }
  | none =>
    .ok { status := "error",
          message := some ("Unknown calculation: " ++ rule.expression),
          rule_id := rule.rule_id }

/-- The field loop of `_apply_transformation_rule`: for each listed field
present in the transformed dict, multiply it in place by
`parameters.get("rate", 1.0)`. -/
def transformFields (rule : Rule) (tref : Nat) : List String → Heap → Heap
  | [], hh => hh
  | f :: rest, hh =>
    let td := heapRead hh tref
    match dictGet td f with
    | some v =>
      transformFields rule tref rest
        (heapWrite hh tref (dictSet td f (v * rule.parameters.rate.getD 1)))
    | none => transformFields rule tref rest hh

/-- `_apply_transformation_rule`: copy the data dict, and for the
"standardize_currency" expression multiply every listed field that is
present by `parameters.get("rate", 1.0)`; any other expression is a
silent no-op on the copy. -/
def apply_transformation_rule (rule : Rule) (h : Heap) (dref : Nat) :
    Heap × RuleOutcome :=
  let alloc := heapAlloc h (heapRead h dref)
  let h1 := alloc.1
  let tref := alloc.2
  let h2 :=
    if rule.expression = "standardize_currency" then
      transformFields rule tref (rule.parameters.fields.getD []) h1
    else h1
  (h2, { status := "success", transformed_data := some tref, rule_id := rule.rule_id })

/-- `_apply_conditional_rule`: placeholder, always success. -/
def apply_conditional_rule (rule : Rule) : RuleOutcome :=
  { status := "success", rule_id := rule.rule_id }

/-- The body of `_apply_single_rule` inside its try block: dispatch on the
rule type; a raised exception is an `Except.error`. -/
def dispatch_rule (reg : Registry) (rule : Rule) (h : Heap) (dref : Nat) :
    Except String (Heap × RuleOutcome) :=
  match rule.rule_type with
  | .validation => .ok (h, apply_validation_rule rule (heapRead h dref))
  | .calculation => (apply_calculation_rule reg rule (heapRead h dref)).map fun o => (h, o)
  | .transformation => .ok (apply_transformation_rule rule h dref)
  | .conditional => .ok (h, apply_conditional_rule rule)

/-- `_apply_single_rule`: the try/except wrapper — a fault becomes a
status="error" outcome carrying the fault message. -/
def apply_single_rule (reg : Registry) (rule : Rule) (h : Heap) (dref : Nat) :
    Heap × RuleOutcome :=
  match dispatch_rule reg rule h dref with
  | .ok res => res
  | .error e =>
    (h, { status := "error",
          message := some ("Rule application failed: " ++ e),
          rule_id := rule.rule_id })

/-- The `results` dict built by `apply_rules` ("data" is a dict
reference). -/
structure EvaluationBundle where
  dataRef : Nat
  validation_results : List RuleOutcome
  calculations : List (String × Option Val)
  transformations : List (String × Params)
  rule_applications : List RuleApplication
deriving DecidableEq

/-- `results["calculations"][rule_id] = output` (dict-update semantics). -/
def calcSet : List (String × Option Val) → String → Option Val → List (String × Option Val)
  | [], k, v => [(k, v)]
  | (k', v') :: rest, k, v =>
    if k' = k then (k, v) :: rest else (k', v') :: calcSet rest k v

/-- The per-rule loop of `apply_rules`: skip rules not yet effective;
apply the rule to the CURRENT data reference, append its audit entry, and
route its result by rule type (transformations move the data reference
forward). -/
def apply_rules_go (reg : Registry) (now : ℤ) :
    List Rule → Heap → EvaluationBundle → Heap × EvaluationBundle
  | [], h, b => (h, b)
  | rule :: rest, h, b =>
    if rule.effective_date ≤ now then
      let step := apply_single_rule reg rule h b.dataRef
      let h1 := step.1
      let result := step.2
      let b1 := { b with rule_applications := b.rule_applications ++
        [{ rule_id := rule.rule_id, status := result.status,
           message := result.message, output := result.output }] }
      let b2 :=
        match rule.rule_type with
        | .transformation => { b1 with dataRef := result.transformed_data.getD b1.dataRef }
        | .calculation => { b1 with calculations := calcSet b1.calculations rule.rule_id result.output }
        | .validation => { b1 with validation_results := b1.validation_results ++ [result] }
        | .conditional => b1
      apply_rules_go reg now rest h1 b2
    else
      apply_rules_go reg now rest h b

/-- The engine state: `self.rules`, a dict from regulator to its rule
list. -/
structure Engine where
  rules : List (String × List Rule)
deriving DecidableEq

/-- Dict lookup on the rules map. -/
def findRules : List (String × List Rule) → String → Option (List Rule)
  | [], _ => none
  | (k, v) :: rest, regulator =>
    if k = regulator then some v else findRules rest regulator

/-- Lookup of `self.rules[regulator]`. -/
def rulesFor (e : Engine) (regulator : String) : Option (List Rule) :=
  findRules e.rules regulator

/-- `apply_rules(data, regulator)`: raise for an unknown regulator, copy
the input data, then run every loaded rule for the regulator in load
order. -/
def apply_rules (e : Engine) (reg : Registry) (h : Heap) (dref : Nat)
    (regulator : String) (now : ℤ) : Except String (Heap × EvaluationBundle) :=
  match rulesFor e regulator with
  | none => .error ("No rules found for regulator: " ++ regulator)
  | some rs =>
    let alloc := heapAlloc h (heapRead h dref)
    .ok (apply_rules_go reg now rs alloc.1
      { dataRef := alloc.2, validation_results := [], calculations := [],
        transformations := [], rule_applications := [] })

/-- One raw record of a rules definition file, as parsed JSON.  `none`
means the key is absent (a `rule_data[...]` access then raises KeyError).
For `effective_date` the inner `Option ℤ` is the outcome of
`datetime.fromisoformat` on the raw string: `none` means the string does
not parse (ValueError). -/
structure RuleRecord where
  rule_id : Option String := none
  regulator : Option String := none
  rule_type : Option String := none
  description : Option String := none
  expression : Option String := none
  parameters : Option Params := none
  version : Option String := none
  effective_date : Option (Option ℤ) := none
deriving DecidableEq

/-- A required `rule_data[key]` access: KeyError when absent. -/
def require {A : Type} (key : String) : Option A → Except String A
  | none => .error ("KeyError: " ++ key)
  | some v => .ok v

/-- Building one `Rule(...)` inside `load_rules`: the keyword-argument
expressions are evaluated in source order, so the first bad field decides
which exception is raised. -/
def parseRecord (r : RuleRecord) : Except String Rule := do
  let rid ← require "rule_id" r.rule_id
  let reg ← require "regulator" r.regulator
  let rts ← require "rule_type" r.rule_type
  let rt ← match parseRuleType rts with
    | some t => Except.ok t
    | none => Except.error ("ValueError: invalid RuleType " ++ rts)
  let desc ← require "description" r.description
  let expr ← require "expression" r.expression
  let params := r.parameters.getD {}
  let ver ← require "version" r.version
  let edRaw ← require "effective_date" r.effective_date
  let ed ← match edRaw with
    | some t => Except.ok t
    | none => Except.error "ValueError: invalid isoformat string"
  pure { rule_id := rid, regulator := reg, rule_type := rt, description := desc,
         expression := expr, parameters := params, version := ver,
         effective_date := ed }

/-- Append a rule to its regulator's entry (dict-update semantics:
overwrite in place, or append a new entry). -/
def addRuleGo : List (String × List Rule) → Rule → List (String × List Rule)
  | [], rule => [(rule.regulator, [rule])]
  | (k, v) :: rest, rule =>
    if k = rule.regulator then (k, v ++ [rule]) :: rest
    else (k, v) :: addRuleGo rest rule

/-- The per-rule bookkeeping of `load_rules`: create the regulator's list
if absent, then append. -/
def addRule (e : Engine) (rule : Rule) : Engine :=
  { rules := addRuleGo e.rules rule }

/-- `load_rules`: iterate the definition records in order, building and
appending each Rule; an exception while building one record propagates
out of the method (returned here as `some message`), leaving the records
already processed in place and the rest of the batch unprocessed. -/
def load_rules (e : Engine) : List RuleRecord → Engine × Option String
  | [] => (e, none)
  | r :: rest =>
    match parseRecord r with
    | .ok rule => load_rules (addRule e rule) rest
    | .error msg => (e, some msg)

end RuleEngine

/-
Embedding of src/agents/regulatory_interpreter_agent.py.

The fixed regex pattern table (`self.regulatory_patterns`) is applied
through Python's `re` module, which is an external library: its searches
are modelled by a `PatternLib` environment whose functions record, for a
given text, whether any pattern of a category matches
(`any(re.search(p, text) ...)`) and the lists of captured groups a
finditer loop collects.  Everything the agent itself computes — stage
ordering, the plain `in` substring tests, set-deduplication, domain
enhancement, template synthesis, and confidence arithmetic — is embedded
concretely.
-/

namespace Interpreter

/-- The InterpretationType enum. -/
inductive InterpretationType where
  | requirement
  | prohibition
  | exemption
  | calculation
  | definition
  | process
deriving DecidableEq

/-- Char-list prefix test. -/
def charsPrefix : List Char → List Char → Bool
  | [], _ => true
  | _ :: _, [] => false
  | a :: as, b :: bs => a = b && charsPrefix as bs

/-- Char-list infix test: the needle is a prefix at some position. -/
def charsInfix (needle : List Char) : List Char → Bool
  | [] => needle.isEmpty
  | h :: t => charsPrefix needle (h :: t) || charsInfix needle t

/-- Python `needle in hay` substring test. -/
def strIn (needle hay : String) : Bool :=
  charsInfix needle.toList hay.toList

/-- Python `s.lower()` (faithful on the ASCII range; implemented
structurally over the character list so that concrete evaluation
reduces). -/
def strLower (s : String) : String :=
  String.mk (s.toList.map Char.toLower)

/-- Python `s.replace(pattern, repl)`: replace every occurrence, left to
right, non-overlapping.  Fuel is the remaining length; each step consumes
at least one character for the non-empty patterns used here. -/
def replaceChars (rep : List Char) (pat : List Char) : Nat → List Char → List Char
  | 0, l => l
  | _ + 1, [] => []
  | fuel + 1, c :: rest =>
    if charsPrefix pat (c :: rest) then
      rep ++ replaceChars rep pat fuel ((c :: rest).drop pat.length)
    else
      c :: replaceChars rep pat fuel rest

/-- Python `s.replace(pattern, repl)` on strings. -/
def strReplace (s pat rep : String) : String :=
  String.mk (replaceChars rep.toList pat.toList s.toList.length s.toList)

/-- Python `s.strip()`: drop whitespace from both ends. -/
def strTrim (s : String) : String :=
  String.mk
    (((s.toList.dropWhile Char.isWhitespace).reverse.dropWhile Char.isWhitespace).reverse)

/-- Environment standing for the `re` searches over the fixed pattern
table.  `searchCalculations s` is `any(re.search(p, s) for p in
patterns["calculations"])` and likewise for prohibitions/exemptions;
the `find*` functions are the captured groups collected by the finditer
loops of `_extract_components` (requirement "action" groups, data-field
"field" groups, exemption "condition" groups, calculation "formula"
groups), in match order. -/
structure PatternLib where
  searchCalculations : String → Bool
  searchProhibitions : String → Bool
  searchExemptions : String → Bool
  findActions : String → List String
  findFields : String → List String
  findConditions : String → List String
  findFormulas : String → List String

/-- Collapse every maximal whitespace run to a single space
(`re.sub(r'\s+', ' ', text)`); the Bool tracks whether the previous
character was part of a run already emitted. -/
def collapseWsGo : List Char → Bool → List Char
  | [], _ => []
  | c :: cs, inRun =>
    if c.isWhitespace then
      if inRun then collapseWsGo cs true else ' ' :: collapseWsGo cs true
    else c :: collapseWsGo cs false

/-- The section-reference substitution of `_preprocess_text`.  The source
literally contains the two characters "ยง" (mojibake of §) before
optional whitespace and digits; a match is rewritten to "Section " ++
digits, scanning left to right (fuel = remaining length, consumed ≥ 1
per step). -/
def sectionSubGo : Nat → List Char → List Char
  | 0, l => l
  | _ + 1, [] => []
  | fuel + 1, c :: rest =>
    if c = 'ย' then
      match rest with
      | c2 :: rest2 =>
        if c2 = 'ง' then
          let ws := rest2.dropWhile (fun x => x.isWhitespace)
          let digits := ws.takeWhile (fun x => x.isDigit)
          if digits.isEmpty then c :: sectionSubGo fuel rest
          else "Section ".toList ++ digits ++ sectionSubGo fuel (ws.dropWhile (fun x => x.isDigit))
        else c :: sectionSubGo fuel rest
      | [] => [c]
    else c :: sectionSubGo fuel rest

/-- `_preprocess_text`: collapse whitespace, rewrite section references,
expand the four abbreviations by unconditional `str.replace` in dict
order, then strip. -/
def preprocess_text (text : String) : String :=
  let t1 := String.mk (collapseWsGo text.toList false)
  let t2 := String.mk (sectionSubGo t1.toList.length t1.toList)
  let t3 := strReplace (strReplace (strReplace (strReplace t2
    "Corp." "Corporation") "Inc." "Incorporated") "Ltd." "Limited") "Co." "Company"
  strTrim t3

/-- `_identify_interpretation_type`: lower the text and test the
categories in fixed priority order — calculation patterns, prohibition
patterns, exemption patterns, the process keywords, the definition
keywords — defaulting to REQUIREMENT. -/
def identify_interpretation_type (lib : PatternLib) (text : String) : InterpretationType :=
  let tl := strLower text
  if lib.searchCalculations tl then .calculation
  else if lib.searchProhibitions tl then .prohibition
  else if lib.searchExemptions tl then .exemption
  else if strIn "procedure" tl || strIn "process" tl || strIn "steps" tl then .process
  else if strIn "means" tl || strIn "defined as" tl then .definition
  else .requirement

/-- The components dict of `_extract_components` (the "deadlines" and
"entities" keys are initialized but never filled by the method). -/
structure Components where
  actions : List String
  conditions : List String
  data_fields : List String
  calculations : List String
deriving DecidableEq

/-- `_extract_components`: actions, data fields and conditions are always
scanned; calculation formulas only when the classified type is
CALCULATION. -/
def extract_components (lib : PatternLib) (text : String) (ty : InterpretationType) :
    Components :=
  { actions := lib.findActions text,
    conditions := lib.findConditions text,
    data_fields := lib.findFields text,
    calculations := if ty = .calculation then lib.findFormulas text else [] }

/-- One regulator's entry of `self.domain_knowledge`, restricted to the
keys `_apply_domain_knowledge` reads: `forms` and (when present) the
`calculations` name→formula table. -/
structure Domain where
  forms : List String
  calculations : Option (List (String × String))

/-- The domain-knowledge table: sec, fca (no calculations key), esma. -/
def domain_knowledge (regulator : String) : Option Domain :=
  if regulator = "sec" then
    some { forms := ["10-K", "10-Q", "8-K", "DEF 14A"],
           calculations := some [("eps", "net_income / weighted_average_shares"),
                                 ("current_ratio", "current_assets / current_liabilities")] }
  else if regulator = "fca" then
    some { forms := ["GABRIEL", "REP-CRIM", "FSA001"], calculations := none }
  else if regulator = "esma" then
    some { forms := ["EMIR", "MiFID II", "AIFMD"],
           calculations := some [("leverage", "exposure / nav")] }
  else none

/-- Components after `_apply_domain_knowledge`: the copied base dict plus
the optional `specific_forms` and `calculation_formulas` keys. -/
structure Enhanced where
  base : Components
  specific_forms : Option (List String)
  calculation_formulas : Option (List (String × String))

/-- `_apply_domain_knowledge`: for a known (lowercased) regulator, attach
`specific_forms` when a known form code occurs inside the joined action
text containing "report", and `calculation_formulas` when a known formula
name occurs inside an extracted calculation phrase (each later match
overwrites the key, so the last match wins). -/
def apply_domain_knowledge (c : Components) (regulator : String) : Enhanced :=
  match domain_knowledge (strLower regulator) with
  | none => { base := c, specific_forms := none, calculation_formulas := none }
  | some dom =>
    let actStr := strLower (String.intercalate " " c.actions)
    let forms :=
      if strIn "report" actStr then
        dom.forms.foldl
          (fun acc form => if strIn (strLower form) actStr then some [form] else acc) none
      else none
    let formulas :=
      match dom.calculations, c.calculations with
      | some table, _ :: _ =>
        c.calculations.foldl
          (fun acc phrase =>
            table.foldl
              (fun acc2 nf => if strIn nf.1 (strLower phrase) then some [nf] else acc2) acc)
          none
      | _, _ => none
    { base := c, specific_forms := forms, calculation_formulas := formulas }

/-- The RegulatoryInterpretation dataclass.  `regulation_id` is
`f"{regulator}_{hash(text)}"` in the source; the opaque `hash(text)` is
modelled by the text itself (no claim depends on the id).  The free-form
`metadata` dict (audit copy of components/context) is not modelled; no
claim touches it.  `calculation_formula` is `json.dumps` of the attached
formula table, modelled by the table itself (it is `None` exactly when no
table was attached, and `json.dumps` of a non-empty dict is truthy). -/
structure RegulatoryInterpretation where
  regulation_id : String
  sectionTag : String
  interpretation_type : InterpretationType
  original_text : String
  interpreted_meaning : String
  data_requirements : List String
  calculation_formula : Option (List (String × String))
  conditions : List String
  effective_date : ℤ
  confidence_score : ℚ
deriving DecidableEq

/-- `_build_interpreted_meaning` (the `components.get(..., default)`
fallbacks are dead: `_extract_components` always creates the keys). -/
def build_interpreted_meaning (ty : InterpretationType) (c : Components) : String :=
  match ty with
  | .requirement =>
    if c.data_fields.isEmpty then
      "Must " ++ String.intercalate ", " c.actions
    else
      "Must " ++ String.intercalate ", " c.actions ++ " and report " ++
        String.intercalate ", " c.data_fields
  | .prohibition => "Prohibited from " ++ String.intercalate ", " c.actions
  | .calculation => "Calculate values using: " ++ String.intercalate ", " c.calculations
  | .exemption => "Exemption applies if: " ++ String.intercalate "; " c.conditions
  | _ => "Interpretation requires manual review"

/-- The ambiguity marker words of `_calculate_confidence`. -/
def ambiguous_terms : List String := ["may", "could", "might", "generally", "typically"]

/-- `_calculate_confidence`: 0.5 base, +0.1·min(len(data_requirements),3)
when non-empty, +0.1·min(len(conditions),2) when non-empty, +0.2 when a
calculation formula is attached, then −0.05 for each marker term that
occurs as a substring of the lowercased stored text (once per term —
membership, not occurrence count), clamped to [0,1]. -/
def calculate_confidence (i : RegulatoryInterpretation) : ℚ :=
  let s0 : ℚ := 1/2
  let s1 := if ¬ i.data_requirements.isEmpty then
      s0 + (1/10) * (min i.data_requirements.length 3 : ℕ) else s0
  let s2 := if ¬ i.conditions.isEmpty then
      s1 + (1/10) * (min i.conditions.length 2 : ℕ) else s1
  let s3 := if i.calculation_formula.isSome then s2 + 1/5 else s2
  let s4 := ambiguous_terms.foldl
    (fun s t => if strIn t (strLower i.original_text) then s - 1/20 else s) s3
  min (max s4 0) 1

/-- `_generate_interpretation` (before the confidence score is filled
in): `data_requirements` is `list(set(data_fields))` — modelled as
first-occurrence dedup, which has the same length and membership as the
Python set — and `original_text` stores the CLEANED text it receives. -/
def generate_interpretation (text : String) (ty : InterpretationType)
    (enh : Enhanced) (regulator : String) (now : ℤ) : RegulatoryInterpretation :=
  { regulation_id := regulator ++ "_" ++ text,
    sectionTag := "TBD",
    interpretation_type := ty,
    original_text := text,
    interpreted_meaning := build_interpreted_meaning ty enh.base,
    data_requirements := enh.base.data_fields.dedup,
    calculation_formula := enh.calculation_formulas,
    conditions := enh.base.conditions,
    effective_date := now,
    confidence_score := 0 }

/-- `interpret_regulation`: preprocess, classify, extract, enhance,
synthesize, then fill in the confidence score.  `now` stands for
`datetime.now()`; the optional context only feeds the unmodelled
metadata. -/
def interpret_regulation (lib : PatternLib) (regulation_text regulator : String)
    (now : ℤ) : RegulatoryInterpretation :=
  let cleaned := preprocess_text regulation_text
  let ty := identify_interpretation_type lib cleaned
  let comps := extract_components lib cleaned ty
  let enh := apply_domain_knowledge comps regulator
  let interp := generate_interpretation cleaned ty enh regulator now
  { interp with confidence_score := calculate_confidence interp }

end Interpreter

/-
Concrete fixtures: rules, definition records, registries and pattern
environments used to instantiate the theorems below on explicit inputs.
-/

namespace RuleEngine

/-- A validation rule with the given field/condition parameters. -/
def mkValidationRule (id f c : String) : Rule :=
  { rule_id := id, regulator := "SEC", rule_type := .validation,
    description := "validation rule", expression := "expr",
    parameters := { field := some f, condition := some c },
    version := "1.0", effective_date := 0 }

/-- A calculation rule with the given expression name. -/
def mkCalculationRule (id expr : String) : Rule :=
  { rule_id := id, regulator := "SEC", rule_type := .calculation,
    description := "calculation rule", expression := expr,
    parameters := {}, version := "1.0", effective_date := 0 }

/-- A standardize_currency transformation rule on field "amount" with the
given rate. -/
def mkTransformRule (id : String) (rate : Val) : Rule :=
  { rule_id := id, regulator := "SEC", rule_type := .transformation,
    description := "transformation rule", expression := "standardize_currency",
    parameters := { fields := some ["amount"], rate := some rate },
    version := "1.0", effective_date := 0 }

/-- Engine holding the two transformation rules of the load-order
scenario: amount ×2 first, then ×3. -/
def eng62 : Engine :=
  { rules := [("SEC", [mkTransformRule "rule1" 2, mkTransformRule "rule2" 3])] }

/-- Engine holding [valid-A, unknown-calculation-B, valid-C]. -/
def engABC : Engine :=
  { rules := [("SEC", [mkValidationRule "A" "revenue" "positive",
                       mkCalculationRule "B" "unknown_calc",
                       mkValidationRule "C" "revenue" "required"])] }

/-- A well-formed definitions record for regulator SEC. -/
def recWF (id : String) : RuleRecord :=
  { rule_id := some id, regulator := some "SEC", rule_type := some "validation",
    description := some "a rule", expression := some "expr",
    version := some "1.0", effective_date := some (some 0) }

/-- A record whose rule_type is not one of the four enum values, so
`RuleType(...)` raises ValueError while the record is built. -/
def recBadType : RuleRecord :=
  { rule_id := some "BAD", regulator := some "SEC", rule_type := some "bogus",
    description := some "a rule", expression := some "expr",
    version := some "1.0", effective_date := some (some 0) }

/-- A registry holding one registered calculation function that raises
when called (an arbitrary fault inside a rule evaluator). -/
def raisingRegistry : Registry := fun name =>
  if name = "raising_calc" then some (fun _ _ => .error "boom") else none

/-- The rule list an engine holds for a regulator (empty when the
regulator has no entry). -/
def rulesList (e : Engine) (regulator : String) : List Rule :=
  (rulesFor e regulator).getD []

/-- The rules a definitions batch contributes for a regulator: its
well-formed records naming that regulator, in order. -/
def parsedFor (regulator : String) (records : List RuleRecord) : List Rule :=
  records.filterMap (fun r =>
    match parseRecord r with
    | .ok rule => if rule.regulator = regulator then some rule else none
    | .error _ => none)

end RuleEngine

namespace Interpreter

/-- Pattern environment for texts on which none of the table's regular
expressions matches: every `re.search` returns None and every finditer
loop collects nothing.  This is the case for each text it is applied to
below ("may may", "dismayed"), none of which contains any of the pattern
trigger words (shall/must/required/obligated/prohibited/except/unless/
exempted/not applicable/calculated/determined/equal/=/report/disclose/
provide/submit). -/
def noMatchLib : PatternLib :=
  { searchCalculations := fun _ => false,
    searchProhibitions := fun _ => false,
    searchExemptions := fun _ => false,
    findActions := fun _ => [],
    findFields := fun _ => [],
    findConditions := fun _ => [],
    findFormulas := fun _ => [] }

/-- Pattern environment for a text that matches both a calculation
pattern and a prohibition pattern (e.g. "X is calculated as Y and shall
not Z"): the calculation and prohibition searches succeed. -/
def calcAndProhLib : PatternLib :=
  { searchCalculations := fun _ => true,
    searchProhibitions := fun _ => true,
    searchExemptions := fun _ => false,
    findActions := fun _ => [],
    findFields := fun _ => [],
    findConditions := fun _ => [],
    findFormulas := fun _ => [] }

/-- The confidence formula as the amended claim states it: 0.5, plus
0.1·min(#data requirements, 3), plus 0.1·min(#conditions, 2), plus 0.2
when a calculation formula is attached, minus 0.05 per DISTINCT marker
word occurring as a substring of the lowercased stored text (at most one
penalty per word), clamped to [0,1]. -/
def confidence_spec (dr conds : ℕ) (hasFormula : Bool) (markers : ℕ) : ℚ :=
  min (max ((1 : ℚ)/2 + (1/10) * (min dr 3 : ℕ) + (1/10) * (min conds 2 : ℕ) +
    (if hasFormula then (1 : ℚ)/5 else 0) - (1/20) * (markers : ℕ)) 0) 1

/-- The number of distinct ambiguity marker words occurring as substrings
of the lowercased text. -/
def markerCount (text : String) : ℕ :=
  (ambiguous_terms.filter (fun t => strIn t (strLower text))).length

end Interpreter

/-
Helper lemmas shared by the claim theorems below.
-/

namespace RuleEngine

theorem dictGet_dictSet_self (d : Dict) (k : String) (v : Val) :
    dictGet (dictSet d k v) k = some v := by
  induction d with
  | nil => simp [dictSet, dictGet]
  | cons p rest ih =>
    obtain ⟨k', v'⟩ := p
    by_cases h : k' = k
    · simp [dictSet, h, dictGet]
    · simp [dictSet, h, dictGet, ih]

theorem heapRead_append_left (h l : Heap) (i : Nat) (hi : i < h.length) :
    heapRead (h ++ l) i = heapRead h i := by
  induction h generalizing i with
  | nil => simp at hi
  | cons d rest ih =>
    cases i with
    | zero => simp [heapRead]
    | succ n =>
      simp only [heapRead, List.cons_append, List.getD_cons_succ]
      exact ih n (by simpa using hi)

theorem heapRead_append_new (h : Heap) (d : Dict) :
    heapRead (h ++ [d]) h.length = d := by
  induction h with
  | nil => simp [heapRead]
  | cons x rest ih => simpa [heapRead] using ih

theorem heapWrite_append_new (h : Heap) (x y : Dict) :
    heapWrite (h ++ [x]) h.length y = h ++ [y] := by
  induction h with
  | nil => simp [heapWrite]
  | cons z rest ih => simpa [heapWrite] using ih

theorem heapWrite_length (h : Heap) (r : Nat) (d : Dict) :
    (heapWrite h r d).length = h.length := by
  simp [heapWrite]

theorem heapRead_write_ne (h : Heap) (r i : Nat) (d : Dict) (hne : i ≠ r) :
    heapRead (heapWrite h r d) i = heapRead h i := by
  induction h generalizing r i with
  | nil => simp [heapWrite, heapRead]
  | cons x rest ih =>
    cases r with
    | zero =>
      cases i with
      | zero => exact absurd rfl hne
      | succ n => simp [heapWrite, heapRead]
    | succ m =>
      cases i with
      | zero => simp [heapWrite, heapRead]
      | succ n =>
        simp only [heapWrite, heapRead, List.set_cons_succ, List.getD_cons_succ]
        exact ih m n (fun hx => hne (by simpa using hx))

end RuleEngine

namespace RuleEngine

theorem transformFields_frame (rule : Rule) (tref : Nat) (fields : List String)
    (hh : Heap) (i : Nat) (hne : i ≠ tref) :
    heapRead (transformFields rule tref fields hh) i = heapRead hh i := by
  induction fields generalizing hh with
  | nil => rfl
  | cons f rest ih =>
    simp only [transformFields]
    cases dictGet (heapRead hh tref) f with
    | none => exact ih hh
    | some v => rw [ih]; exact heapRead_write_ne _ _ _ _ hne

theorem transformFields_length (rule : Rule) (tref : Nat) (fields : List String)
    (hh : Heap) :
    (transformFields rule tref fields hh).length = hh.length := by
  induction fields generalizing hh with
  | nil => rfl
  | cons f rest ih =>
    simp only [transformFields]
    cases dictGet (heapRead hh tref) f with
    | none => exact ih hh
    | some v => rw [ih, heapWrite_length]

theorem transform_frame (rule : Rule) (h : Heap) (dref n : Nat) (hn : n ≤ h.length) :
    n ≤ (apply_transformation_rule rule h dref).1.length ∧
    ∀ i, i < n → heapRead (apply_transformation_rule rule h dref).1 i = heapRead h i := by
  simp only [apply_transformation_rule, heapAlloc]
  constructor
  · split
    · rw [transformFields_length]
      simp; omega
    · simp; omega
  · intro i hi
    have hne : i ≠ h.length := by omega
    have hread : heapRead (h ++ [heapRead h dref]) i = heapRead h i :=
      heapRead_append_left _ _ _ (by omega)
    split
    · rw [transformFields_frame _ _ _ _ _ hne, hread]
    · exact hread

theorem single_frame (reg : Registry) (rule : Rule) (h : Heap) (dref n : Nat)
    (hn : n ≤ h.length) :
    n ≤ (apply_single_rule reg rule h dref).1.length ∧
    ∀ i, i < n → heapRead (apply_single_rule reg rule h dref).1 i = heapRead h i := by
  unfold apply_single_rule dispatch_rule
  cases hty : rule.rule_type
  case validation => exact ⟨hn, fun i _ => rfl⟩
  case conditional => exact ⟨hn, fun i _ => rfl⟩
  case calculation =>
    cases hc : apply_calculation_rule reg rule (heapRead h dref) with
    | ok o => exact ⟨hn, fun i _ => rfl⟩
    | error e => exact ⟨hn, fun i _ => rfl⟩
  case transformation =>
    exact transform_frame rule h dref n hn

theorem go_frame (reg : Registry) (now : ℤ) (rs : List Rule) (h : Heap)
    (b : EvaluationBundle) (n : Nat) (hn : n ≤ h.length) :
    n ≤ (apply_rules_go reg now rs h b).1.length ∧
    ∀ i, i < n → heapRead (apply_rules_go reg now rs h b).1 i = heapRead h i := by
  induction rs generalizing h b with
  | nil => exact ⟨hn, fun i _ => rfl⟩
  | cons r rest ih =>
    simp only [apply_rules_go]
    split
    · have hstep := single_frame reg r h b.dataRef n hn
      refine ⟨(ih _ _ hstep.1).1, fun i hi => ?_⟩
      rw [(ih _ _ hstep.1).2 i hi, hstep.2 i hi]
    · exact ih h b hn

end RuleEngine

namespace RuleEngine

theorem go_transformations (reg : Registry) (now : ℤ) (rs : List Rule) (h : Heap)
    (b : EvaluationBundle) :
    (apply_rules_go reg now rs h b).2.transformations = b.transformations := by
  induction rs generalizing h b with
  | nil => rfl
  | cons r rest ih =>
    simp only [apply_rules_go]
    split
    · rw [ih]
      cases r.rule_type <;> rfl
    · exact ih h b

theorem go_apps_length (reg : Registry) (now : ℤ) (rs : List Rule) (h : Heap)
    (b : EvaluationBundle) :
    (apply_rules_go reg now rs h b).2.rule_applications.length =
      b.rule_applications.length +
        (rs.filter (fun r => decide (r.effective_date ≤ now))).length := by
  induction rs generalizing h b with
  | nil => rfl
  | cons r rest ih =>
    simp only [apply_rules_go]
    split
    case isTrue heff =>
      rw [ih]
      have happs : ∀ (b1 : EvaluationBundle) (entry : RuleApplication),
          (match r.rule_type with
            | RuleType.transformation =>
              { b1 with dataRef := (apply_single_rule reg r h b.dataRef).2.transformed_data.getD b1.dataRef }
            | RuleType.calculation =>
              { b1 with calculations := calcSet b1.calculations r.rule_id (apply_single_rule reg r h b.dataRef).2.output }
            | RuleType.validation =>
              { b1 with validation_results := b1.validation_results ++ [(apply_single_rule reg r h b.dataRef).2] }
            | RuleType.conditional => b1 : EvaluationBundle).rule_applications =
            b1.rule_applications := by
        intro b1 entry
        cases r.rule_type <;> rfl
      simp only [List.filter_cons, decide_eq_true_eq, heff, if_pos, List.length_cons]
      cases r.rule_type <;> simp <;> omega
    case isFalse heff =>
      rw [ih]
      simp only [List.filter_cons]
      have : (decide (r.effective_date ≤ now)) = false := by simpa using heff
      rw [this]
      simp

theorem go_apps_prefix (reg : Registry) (now : ℤ) (rs : List Rule) (h : Heap)
    (b : EvaluationBundle) :
    b.rule_applications <+: (apply_rules_go reg now rs h b).2.rule_applications := by
  induction rs generalizing h b with
  | nil => exact List.prefix_refl _
  | cons r rest ih =>
    simp only [apply_rules_go]
    split
    · refine List.IsPrefix.trans ?_ (ih _ _)
      cases r.rule_type <;> exact ⟨_, rfl⟩
    · exact ih h b

theorem go_append (reg : Registry) (now : ℤ) (rs1 rs2 : List Rule) (h : Heap)
    (b : EvaluationBundle) :
    apply_rules_go reg now (rs1 ++ rs2) h b =
      apply_rules_go reg now rs2 (apply_rules_go reg now rs1 h b).1
        (apply_rules_go reg now rs1 h b).2 := by
  induction rs1 generalizing h b with
  | nil => rfl
  | cons r rest ih =>
    simp only [List.cons_append, apply_rules_go]
    split
    · exact ih _ _
    · exact ih h b

end RuleEngine

namespace RuleEngine

theorem findRules_addRuleGo (l : List (String × List Rule)) (rule : Rule) (R : String) :
    findRules (addRuleGo l rule) R =
      if rule.regulator = R then some ((findRules l R).getD [] ++ [rule])
      else findRules l R := by
  induction l with
  | nil =>
    simp only [addRuleGo, findRules]
    by_cases h : rule.regulator = R <;> simp [h]
  | cons p rest ih =>
    obtain ⟨k, v⟩ := p
    simp only [addRuleGo]
    by_cases hk : k = rule.regulator
    · simp only [if_pos hk, findRules]
      by_cases hR : k = R
      · have hreg : rule.regulator = R := hk.symm.trans hR
        simp [findRules, hR, hreg]
      · have hreg : rule.regulator ≠ R := fun hx => hR (hk.trans hx)
        simp [findRules, hR, hreg]
    · simp only [if_neg hk, findRules]
      by_cases hR : k = R
      · have hreg : rule.regulator ≠ R := fun hx => hk (hR.trans hx.symm)
        simp [findRules, hR, hreg]
      · simp [findRules, hR, ih]

theorem rulesList_addRule (e : Engine) (rule : Rule) (R : String) :
    rulesList (addRule e rule) R =
      if rule.regulator = R then rulesList e R ++ [rule] else rulesList e R := by
  simp only [rulesList, rulesFor, addRule, findRules_addRuleGo]
  by_cases h : rule.regulator = R <;> simp [h]

theorem transform_step (id : String) (rate : Val) (h : Heap) (dref : Nat) (a : Val)
    (ha : dictGet (heapRead h dref) "amount" = some a) :
    apply_transformation_rule (mkTransformRule id rate) h dref =
      (h ++ [dictSet (heapRead h dref) "amount" (a * rate)],
       { status := "success", transformed_data := some h.length, rule_id := id }) := by
  simp [apply_transformation_rule, mkTransformRule, heapAlloc, transformFields,
    heapRead_append_new, ha, heapWrite_append_new]

theorem dispatch_transformation (reg : Registry) (rule : Rule) (h : Heap) (dref : Nat)
    (hty : rule.rule_type = RuleType.transformation) :
    apply_single_rule reg rule h dref = apply_transformation_rule rule h dref := by
  simp [apply_single_rule, dispatch_rule, hty]

theorem eng62_step1 (d : Dict) (a : Val) (ha : dictGet d "amount" = some a) :
    apply_single_rule standard_registry (mkTransformRule "rule1" 2) [d, d] 1 =
      ([d, d, dictSet d "amount" (a * 2)],
       { status := "success", transformed_data := some 2, rule_id := "rule1" }) := by
  rw [dispatch_transformation _ _ _ _ rfl,
    transform_step "rule1" 2 [d, d] 1 a (by simpa [heapRead] using ha)]
  simp [heapRead]

theorem eng62_step2 (d : Dict) (a : Val) :
    apply_single_rule standard_registry (mkTransformRule "rule2" 3)
        [d, d, dictSet d "amount" (a * 2)] 2 =
      ([d, d, dictSet d "amount" (a * 2),
        dictSet (dictSet d "amount" (a * 2)) "amount" (a * 2 * 3)],
       { status := "success", transformed_data := some 3, rule_id := "rule2" }) := by
  have ha2 : dictGet (heapRead [d, d, dictSet d "amount" (a * 2)] 2) "amount" =
      some (a * 2) := by
    simp [heapRead, dictGet_dictSet_self]
  rw [dispatch_transformation _ _ _ _ rfl,
    transform_step "rule2" 3 [d, d, dictSet d "amount" (a * 2)] 2 (a * 2) ha2]
  simp [heapRead]

theorem go_cons_eff (reg : Registry) (now : ℤ) (r : Rule) (rest : List Rule) (h : Heap)
    (b : EvaluationBundle) (heff : r.effective_date ≤ now)
    (hty : r.rule_type = RuleType.transformation) :
    apply_rules_go reg now (r :: rest) h b =
      apply_rules_go reg now rest (apply_single_rule reg r h b.dataRef).1
        { b with
          dataRef := (apply_single_rule reg r h b.dataRef).2.transformed_data.getD b.dataRef,
          rule_applications := b.rule_applications ++
            [{ rule_id := r.rule_id, status := (apply_single_rule reg r h b.dataRef).2.status,
               message := (apply_single_rule reg r h b.dataRef).2.message,
               output := (apply_single_rule reg r h b.dataRef).2.output }] } := by
  simp [apply_rules_go, heff, hty]

/-- Full symbolic evaluation of the two-transformation engine: the ×2
rule rewrites a fresh copy, the ×3 rule rewrites a further copy of that,
and the bundle's data reference points at the final copy. -/
theorem eng62_eval (d : Dict) (a : Val) (ha : dictGet d "amount" = some a) :
    apply_rules eng62 standard_registry [d] 0 "SEC" 0 =
      .ok ([d, d, dictSet d "amount" (a * 2),
            dictSet (dictSet d "amount" (a * 2)) "amount" (a * 2 * 3)],
        { dataRef := 3, validation_results := [], calculations := [],
          transformations := [],
          rule_applications :=
            [{ rule_id := "rule1", status := "success", message := none, output := none },
             { rule_id := "rule2", status := "success", message := none, output := none }] }) := by
  have h0 : apply_rules eng62 standard_registry [d] 0 "SEC" 0 =
      .ok (apply_rules_go standard_registry 0
        [mkTransformRule "rule1" 2, mkTransformRule "rule2" 3] [d, d]
        { dataRef := 1, validation_results := [], calculations := [],
          transformations := [], rule_applications := [] }) := rfl
  rw [h0, go_cons_eff _ _ _ _ _ _ (by norm_num [mkTransformRule]) rfl,
    eng62_step1 d a ha]
  show (Except.ok (apply_rules_go standard_registry 0 [mkTransformRule "rule2" 3]
      [d, d, dictSet d "amount" (a * 2)]
      { dataRef := 2, validation_results := [], calculations := [], transformations := [],
        rule_applications :=
          [{ rule_id := "rule1", status := "success", message := none, output := none }] }) :
    Except String (Heap × EvaluationBundle)) = _
  rw [go_cons_eff _ _ _ _ _ _ (by norm_num [mkTransformRule]) rfl, eng62_step2 d a]
  rfl

end RuleEngine

open RuleEngine Interpreter

/-- C10: the built-in debt_to_equity_ratio treats a missing total_equity
differently from a present zero: absent total_equity defaults to 1 and
the result equals total_debt (itself defaulting to 0 when absent), while
an explicit total_equity of 0 yields 0. -/
theorem C10_debt_to_equity_missing_vs_zero (d : Dict) (p : Params) :
    (dictGet d "total_equity" = none →
      debt_to_equity_ratio d p = (dictGet d "total_debt").getD 0) ∧
    (dictGet d "total_equity" = some 0 → debt_to_equity_ratio d p = 0) := by
  constructor
  · intro h
    simp [debt_to_equity_ratio, h]
  · intro h
    simp [debt_to_equity_ratio, h]

/-- C10 witness: 200/absent-equity = 200, 200/zero-equity = 0, and with
both fields absent the result is 0. -/
theorem C10_witness :
    debt_to_equity_ratio [("total_debt", 200)] {} = 200 ∧
    debt_to_equity_ratio [("total_debt", 200), ("total_equity", 0)] {} = 0 ∧
    debt_to_equity_ratio [] {} = 0 := by
  refine ⟨?_, ?_, ?_⟩
  · have h := (C10_debt_to_equity_missing_vs_zero [("total_debt", 200)] {}).1 rfl
    simpa [dictGet] using h
  · exact (C10_debt_to_equity_missing_vs_zero [("total_debt", 200), ("total_equity", 0)] {}).2 rfl
  · have h := (C10_debt_to_equity_missing_vs_zero [] {}).1 rfl
    simpa [dictGet] using h

/-- C8: for every pattern environment, input text, regulator and clock,
the confidence score of the interpretation returned by
interpret_regulation lies in [0, 1]. -/
theorem C8_confidence_bounds (lib : PatternLib) (text regulator : String) (now : ℤ) :
    0 ≤ (interpret_regulation lib text regulator now).confidence_score ∧
    (interpret_regulation lib text regulator now).confidence_score ≤ 1 :=
  ⟨le_min (le_max_right _ _) zero_le_one, min_le_right _ _⟩

/-- C7: classification is first-match-wins in the fixed order
CALCULATION, PROHIBITION, EXEMPTION, PROCESS keywords, DEFINITION
keywords, default REQUIREMENT; in particular any text matching both a
calculation and a prohibition pattern classifies as CALCULATION. -/
theorem C7_classification_priority (lib : PatternLib) (text : String) :
    (lib.searchCalculations (strLower text) = true →
      identify_interpretation_type lib text = .calculation) ∧
    (lib.searchCalculations (strLower text) = false →
      lib.searchProhibitions (strLower text) = true →
      identify_interpretation_type lib text = .prohibition) ∧
    (lib.searchCalculations (strLower text) = false →
      lib.searchProhibitions (strLower text) = false →
      lib.searchExemptions (strLower text) = true →
      identify_interpretation_type lib text = .exemption) ∧
    (lib.searchCalculations (strLower text) = false →
      lib.searchProhibitions (strLower text) = false →
      lib.searchExemptions (strLower text) = false →
      (strIn "procedure" (strLower text) || strIn "process" (strLower text) ||
        strIn "steps" (strLower text)) = true →
      identify_interpretation_type lib text = .process) ∧
    (lib.searchCalculations (strLower text) = false →
      lib.searchProhibitions (strLower text) = false →
      lib.searchExemptions (strLower text) = false →
      (strIn "procedure" (strLower text) || strIn "process" (strLower text) ||
        strIn "steps" (strLower text)) = false →
      (strIn "means" (strLower text) || strIn "defined as" (strLower text)) = true →
      identify_interpretation_type lib text = .definition) ∧
    (lib.searchCalculations (strLower text) = false →
      lib.searchProhibitions (strLower text) = false →
      lib.searchExemptions (strLower text) = false →
      (strIn "procedure" (strLower text) || strIn "process" (strLower text) ||
        strIn "steps" (strLower text)) = false →
      (strIn "means" (strLower text) || strIn "defined as" (strLower text)) = false →
      identify_interpretation_type lib text = .requirement) := by
  refine ⟨?_, ?_, ?_, ?_, ?_, ?_⟩ <;>
    intros <;> simp_all [identify_interpretation_type]

/-- C7 witness: a text matching both a calculation pattern and a
prohibition pattern classifies as CALCULATION. -/
theorem C7_witness :
    identify_interpretation_type calcAndProhLib
      "The ratio is calculated as X over Y and shall not exceed Z" = .calculation :=
  (C7_classification_priority calcAndProhLib
    "The ratio is calculated as X over Y and shall not exceed Z").1 rfl

/-- C2 counterexample: evaluating two effective TRANSFORMATION rules
(both applied, status success, and the data actually transformed) leaves
the bundle's transformations mapping empty — not a non-empty mapping
keyed by the transformation rules' ids as the claim states. -/
theorem C2_counterexample :
    (apply_rules eng62 standard_registry [[("amount", (100 : Val))]] 0 "SEC" 0).map
        (fun p => (p.2.transformations,
          p.2.rule_applications.map (fun a => (a.rule_id, a.status)),
          dictGet (heapRead p.1 p.2.dataRef) "amount")) =
      .ok ([], [("rule1", "success"), ("rule2", "success")], some 600) := by
  rw [eng62_eval [("amount", 100)] 100 rfl]
  simp only [Except.map, heapRead, dictGet_dictSet_self]
  norm_num [dictGet_dictSet_self]

/-- C2 (amended): the bundle returned by apply_rules always carries an
EMPTY transformations mapping — the engine initializes it and never
writes to it. -/
theorem C2_transformations_always_empty (e : Engine) (reg : Registry) (h : Heap)
    (dref : Nat) (regulator : String) (now : ℤ) :
    match apply_rules e reg h dref regulator now with
    | .ok p => p.2.transformations = []
    | .error _ => True := by
  unfold apply_rules
  cases hr : rulesFor e regulator with
  | none => trivial
  | some rs => simpa using go_transformations reg now rs _ _

/-- C1 counterexample: an engine already holding a SEC rule "OLD", after
load of a definitions set for SEC containing only "NEW", holds BOTH
rules — the prior rule is not discarded, so the rules held are not
exactly those of the new definitions. -/
theorem C1_counterexample :
    (rulesList (load_rules (load_rules { rules := [] } [recWF "OLD"]).1
        [recWF "NEW"]).1 "SEC").map Rule.rule_id = ["OLD", "NEW"] ∧
    (["OLD", "NEW"] : List String) ≠ ["NEW"] := by
  refine ⟨rfl, by decide⟩

/-- C1 (amended): loading a definitions set APPENDS to each regulator's
existing rule list instead of replacing it: after a fully well-formed
load, every regulator's rule list is its previous list followed by the
new definitions' rules for that regulator, in order. -/
theorem C1_load_appends (e : Engine) (records : List RuleRecord) (R : String)
    (hwf : ∀ r ∈ records, ∃ rule, parseRecord r = .ok rule) :
    (load_rules e records).2 = none ∧
    rulesList (load_rules e records).1 R = rulesList e R ++ parsedFor R records := by
  induction records generalizing e with
  | nil => simp [load_rules, parsedFor]
  | cons r rest ih =>
    obtain ⟨rule, hr⟩ := hwf r (by simp)
    have hrest : ∀ x ∈ rest, ∃ rule, parseRecord x = .ok rule :=
      fun x hx => hwf x (by simp [hx])
    simp only [load_rules, hr]
    have hih := ih (addRule e rule) hrest
    refine ⟨hih.1, ?_⟩
    rw [hih.2, rulesList_addRule]
    simp only [parsedFor, List.filterMap_cons, hr]
    by_cases hreg : rule.regulator = R
    · simp [hreg, parsedFor]
    · simp [hreg, parsedFor]

/-- C1 witness: loading two well-formed SEC records into an empty engine
yields exactly the old list (empty) followed by the two parsed rules. -/
theorem C1_witness :
    rulesList (load_rules { rules := [] } [recWF "OLD", recWF "NEW"]).1 "SEC" =
      rulesList { rules := [] } "SEC" ++ parsedFor "SEC" [recWF "OLD", recWF "NEW"] :=
  (C1_load_appends { rules := [] } [recWF "OLD", recWF "NEW"] "SEC"
    (by intro r hr; simp only [List.mem_cons, List.mem_singleton] at hr
        rcases hr with h | h | h
        · subst h; exact ⟨_, rfl⟩
        · subst h; exact ⟨_, rfl⟩
        · cases h)).2

/-- C3 counterexample: loading [well-formed G1, malformed record,
well-formed G2] raises out of the load at the malformed record: G1 is
loaded and remains, but the well-formed G2 after it is NOT loaded,
contradicting the claim that all well-formed records of the batch load. -/
theorem C3_counterexample :
    (load_rules { rules := [] } [recWF "G1", recBadType, recWF "G2"]).2 =
      some "ValueError: invalid RuleType bogus" ∧
    (rulesList (load_rules { rules := [] } [recWF "G1", recBadType, recWF "G2"]).1
      "SEC").map Rule.rule_id = ["G1"] := ⟨rfl, rfl⟩

/-- C3 (amended): a malformed record is fatal to the whole REST of the
batch: load stops at the first malformed record, keeping exactly the
records before it (which remain loaded) and propagating the error. -/
theorem C3_load_aborts_batch (e : Engine) (pre : List RuleRecord) (bad : RuleRecord)
    (post : List RuleRecord) (msg : String)
    (hpre : ∀ r ∈ pre, ∃ rule, parseRecord r = .ok rule)
    (hbad : parseRecord bad = .error msg) :
    load_rules e (pre ++ bad :: post) = ((load_rules e pre).1, some msg) := by
  induction pre generalizing e with
  | nil => simp [load_rules, hbad]
  | cons r rest ih =>
    obtain ⟨rule, hr⟩ := hpre r (by simp)
    simp only [List.cons_append, load_rules, hr]
    exact ih (addRule e rule) (fun x hx => hpre x (by simp [hx]))

/-- C3 witness: the batch [G1, malformed, G2] loads exactly as loading
[G1] alone, with the ValueError propagated. -/
theorem C3_witness :
    load_rules { rules := [] } ([recWF "G1"] ++ recBadType :: [recWF "G2"]) =
      ((load_rules { rules := [] } [recWF "G1"]).1,
        some "ValueError: invalid RuleType bogus") :=
  C3_load_aborts_batch { rules := [] } [recWF "G1"] recBadType [recWF "G2"]
    "ValueError: invalid RuleType bogus"
    (by intro r hr; simp only [List.mem_singleton] at hr; subst hr; exact ⟨_, rfl⟩)
    rfl

/-- C5: per-rule faults are isolated — (i) evaluation records exactly one
outcome per effective rule, never aborting early; (ii) a fault raised
inside a rule evaluator is caught and recorded as a status="error"
outcome carrying the fault message; (iii) evaluating
[valid-A, unknown-calculation-B, valid-C] yields outcomes for all three,
with A and C passed and B an error naming the unknown calculation. -/
theorem C5_fault_isolation :
    (∀ (reg : Registry) (now : ℤ) (rs : List Rule) (h : Heap) (b : EvaluationBundle),
      (apply_rules_go reg now rs h b).2.rule_applications.length =
        b.rule_applications.length +
          (rs.filter (fun r => decide (r.effective_date ≤ now))).length) ∧
    (∀ (reg : Registry) (rule : Rule) (h : Heap) (dref : Nat) (emsg : String),
      dispatch_rule reg rule h dref = .error emsg →
      (apply_single_rule reg rule h dref).2 =
        { status := "error", message := some ("Rule application failed: " ++ emsg),
          rule_id := rule.rule_id }) ∧
    ((apply_rules engABC standard_registry [[("revenue", (500 : Val))]] 0 "SEC" 0).map
        (fun p => p.2.rule_applications.map (fun a => (a.rule_id, a.status, a.message))) =
      .ok [("A", "passed", none),
           ("B", "error", some "Unknown calculation: unknown_calc"),
           ("C", "passed", none)]) := by
  refine ⟨go_apps_length, ?_, ?_⟩
  · intro reg rule h dref emsg hd
    simp [apply_single_rule, hd]
  · rfl

/-- C5 witness: a registered calculation that raises is caught and
recorded as an error outcome carrying the fault message. -/
theorem C5_witness :
    (apply_single_rule raisingRegistry (mkCalculationRule "R" "raising_calc")
        [[("x", (1 : Val))]] 0).2 =
      { status := "error", message := some "Rule application failed: boom",
        rule_id := "R" } :=
  C5_fault_isolation.2.1 raisingRegistry (mkCalculationRule "R" "raising_calc")
    [[("x", 1)]] 0 "boom" rfl

/-- C6: (i) forward-only visibility — the outcomes recorded for a rule
prefix are unchanged by whatever rules follow (no rule observes a later
rule's effect); (ii) the two standardize_currency transformations ×2
then ×3 on field "amount", loaded in that order, produce amount × 6,
the factors applied sequentially to the running snapshot. -/
theorem C6_forward_only_and_load_order :
    (∀ (reg : Registry) (now : ℤ) (rs1 rs2 : List Rule) (h : Heap) (b : EvaluationBundle),
      (apply_rules_go reg now rs1 h b).2.rule_applications <+:
        (apply_rules_go reg now (rs1 ++ rs2) h b).2.rule_applications) ∧
    (∀ (d : Dict) (a : Val), dictGet d "amount" = some a →
      (apply_rules eng62 standard_registry [d] 0 "SEC" 0).map
          (fun p => dictGet (heapRead p.1 p.2.dataRef) "amount") =
        .ok (some (6 * a))) := by
  constructor
  · intro reg now rs1 rs2 h b
    rw [go_append]
    exact go_apps_prefix reg now rs2 _ _
  · intro d a ha
    rw [eng62_eval d a ha]
    simp only [Except.map, heapRead, List.getD_cons_succ, List.getD_cons_zero]
    rw [dictGet_dictSet_self]
    have : a * 2 * 3 = 6 * a := by ring
    rw [this]

/-- C6 witness: amount 100 comes out as 600 = 100 × 6. -/
theorem C6_witness :
    (apply_rules eng62 standard_registry [[("amount", (100 : Val))]] 0 "SEC" 0).map
        (fun p => dictGet (heapRead p.1 p.2.dataRef) "amount") = .ok (some 600) := by
  have h := C6_forward_only_and_load_order.2 [("amount", 100)] 100 rfl
  rw [show (6 : ℚ) * 100 = 600 by norm_num] at h
  exact h

/-- C9: apply_rules never mutates the caller's input dict — the engine
copies it up front and every transformation rewrites a further copy, so
after evaluation the object behind the caller's reference is unchanged. -/
theorem C9_input_not_mutated (e : Engine) (reg : Registry) (h : Heap) (dref : Nat)
    (regulator : String) (now : ℤ) (hdref : dref < h.length) :
    (apply_rules e reg h dref regulator now).map (fun p => heapRead p.1 dref) =
      (apply_rules e reg h dref regulator now).map (fun _ => heapRead h dref) := by
  unfold apply_rules
  cases hr : rulesFor e regulator with
  | none => rfl
  | some rs =>
    show Except.ok (heapRead (apply_rules_go reg now rs (h ++ [heapRead h dref])
      { dataRef := h.length, validation_results := [], calculations := [],
        transformations := [], rule_applications := [] }).1 dref) =
      Except.ok (heapRead h dref)
    have hframe := go_frame reg now rs (h ++ [heapRead h dref])
      { dataRef := h.length, validation_results := [], calculations := [],
        transformations := [], rule_applications := [] } h.length (by simp)
    rw [hframe.2 dref hdref, heapRead_append_left _ _ _ hdref]

/-- C9 witness: on the ×2/×3 transformation engine the caller's dict
still reads amount=100 afterwards, even though the working data was
transformed to 600. -/
theorem C9_witness :
    (apply_rules eng62 standard_registry [[("amount", (100 : Val))]] 0 "SEC" 0).map
        (fun p => heapRead p.1 0) =
      (apply_rules eng62 standard_registry [[("amount", (100 : Val))]] 0 "SEC" 0).map
        (fun _ => heapRead [[("amount", (100 : Val))]] 0) ∧
    (apply_rules eng62 standard_registry [[("amount", (100 : Val))]] 0 "SEC" 0).map
        (fun p => dictGet (heapRead p.1 p.2.dataRef) "amount") = .ok (some 600) := by
  constructor
  · exact C9_input_not_mutated eng62 standard_registry [[("amount", 100)]] 0 "SEC" 0
      (by simp)
  · rw [eng62_eval [("amount", 100)] 100 rfl]
    simp only [Except.map, heapRead, List.getD_cons_succ, List.getD_cons_zero]
    norm_num [dictGet_dictSet_self]

namespace Interpreter

theorem foldl_penalty (low : String) (terms : List String) (s : ℚ) :
    terms.foldl (fun s t => if strIn t low then s - 1/20 else s) s =
      s - (1/20) * ((terms.filter (fun t => strIn t low)).length : ℚ) := by
  induction terms generalizing s with
  | nil => simp
  | cons t rest ih =>
    simp only [List.foldl_cons, List.filter_cons]
    by_cases h : strIn t low = true
    · simp only [h, if_pos, List.length_cons]
      rw [ih]
      push_cast
      ring
    · simp only [h]
      rw [if_neg (by simpa using h), if_neg (by simpa using h), ih]

/-- The confidence computation in closed form: base contributions plus
0.05 per distinct marker word present in the lowered stored text,
clamped. -/
theorem calculate_confidence_closed (i : RegulatoryInterpretation) :
    calculate_confidence i =
      confidence_spec i.data_requirements.length i.conditions.length
        i.calculation_formula.isSome (markerCount i.original_text) := by
  unfold calculate_confidence confidence_spec markerCount
  dsimp only
  rw [foldl_penalty]
  congr 1
  congr 1
  by_cases h1 : i.data_requirements.isEmpty <;>
    by_cases h2 : i.conditions.isEmpty <;>
      by_cases h3 : i.calculation_formula.isSome <;>
        simp_all [List.isEmpty_iff] <;> push_cast <;> ring

/-- The pipeline stores the cleaned text, so the closed-form confidence
of an interpret_regulation result is over the preprocessed text. -/
theorem interpret_confidence_closed (lib : PatternLib) (text regulator : String)
    (now : ℤ) :
    (interpret_regulation lib text regulator now).confidence_score =
      confidence_spec (interpret_regulation lib text regulator now).data_requirements.length
        (interpret_regulation lib text regulator now).conditions.length
        (interpret_regulation lib text regulator now).calculation_formula.isSome
        (markerCount (preprocess_text text)) :=
  calculate_confidence_closed
    (generate_interpretation (preprocess_text text)
      (identify_interpretation_type lib (preprocess_text text))
      (apply_domain_knowledge
        (extract_components lib (preprocess_text text)
          (identify_interpretation_type lib (preprocess_text text)))
        regulator)
      regulator now)

end Interpreter

/-- C4 counterexample: (i) the text "may may" contains the marker word
"may" twice, so the claimed per-occurrence penalty gives 0.5 − 2·0.05 =
0.40, but the pipeline returns 0.45 — the code penalizes a marker word
at most once (membership, not occurrence count); (ii) the text
"dismayed" contains ZERO occurrences of any marker word, so the claim
gives 0.5, but the pipeline returns 0.45 — the code tests substrings,
and "may" occurs inside "dismayed". -/
theorem C4_counterexample :
    (interpret_regulation noMatchLib "may may" "sec" 0).confidence_score = 9/20 ∧
    (9 : ℚ)/20 ≠ 1/2 - 2 * (1/20) ∧
    (interpret_regulation noMatchLib "dismayed" "sec" 0).confidence_score = 9/20 ∧
    (9 : ℚ)/20 ≠ 1/2 := by
  refine ⟨?_, by norm_num, ?_, by norm_num⟩
  · rw [interpret_confidence_closed]
    have h1 : (interpret_regulation noMatchLib "may may" "sec" 0).data_requirements.length
        = 0 := rfl
    have h2 : (interpret_regulation noMatchLib "may may" "sec" 0).conditions.length
        = 0 := rfl
    have h3 : (interpret_regulation noMatchLib "may may" "sec" 0).calculation_formula.isSome
        = false := rfl
    have h4 : markerCount (preprocess_text "may may") = 1 := rfl
    rw [h1, h2, h3, h4]
    norm_num [confidence_spec]
  · rw [interpret_confidence_closed]
    have h1 : (interpret_regulation noMatchLib "dismayed" "sec" 0).data_requirements.length
        = 0 := rfl
    have h2 : (interpret_regulation noMatchLib "dismayed" "sec" 0).conditions.length
        = 0 := rfl
    have h3 : (interpret_regulation noMatchLib "dismayed" "sec" 0).calculation_formula.isSome
        = false := rfl
    have h4 : markerCount (preprocess_text "dismayed") = 1 := rfl
    rw [h1, h2, h3, h4]
    norm_num [confidence_spec]

/-- C4 (amended): the confidence score is 0.5, plus 0.1·min(#data
requirements, 3), plus 0.1·min(#conditions, 2), plus 0.2 when a
calculation formula is attached, minus 0.05 for each DISTINCT marker
word among may/could/might/generally/typically occurring as a
case-insensitive SUBSTRING of the stored text — which is the NORMALIZED
text, not the raw input — at most one penalty per word, clamped to
[0, 1]. -/
theorem C4_confidence_formula (lib : PatternLib) (text regulator : String) (now : ℤ) :
    (interpret_regulation lib text regulator now).original_text = preprocess_text text ∧
    (interpret_regulation lib text regulator now).confidence_score =
      confidence_spec (interpret_regulation lib text regulator now).data_requirements.length
        (interpret_regulation lib text regulator now).conditions.length
        (interpret_regulation lib text regulator now).calculation_formula.isSome
        (markerCount (preprocess_text text)) :=
  ⟨rfl, interpret_confidence_closed lib text regulator now⟩
